import Mathlib

/-!
Shallow embedding of `queue_service` (src/index.js, src/ValidateStoreFields.js,
src/unnamed/part_000): a registration and fan-out dispatch engine over a single
"redis" key-value backend.

JavaScript values are modelled by `JSVal`; the backend hash store by an
association list keyed on (group, field).  The backend adapter (`redis_io`,
not part of the repository) is modelled from the spec, §4.4: `getField`
returns the stored value or absent, `setField` stores the value as given,
`deleteField` removes it, `listFields` lists the field names of a group.
Adapter errors are injected through an explicit fault oracle so that the
error-propagation behaviour of the core can be stated.

The `async` combinators (`eachOf`, `each`, `waterfall`) are modelled as
sequential left-to-right iteration stopping at the first error, which is their
behaviour when every callback fires synchronously; `connectionHandler` holds
exactly the one recognized backend `redis`, so each `eachOf` over it is a
single leg.
-/

set_option autoImplicit false

namespace QueueService

/-- JavaScript `String.prototype.trim`: strip whitespace from both ends
(computable by structural recursion on the character list). -/
def jsTrim (s : String) : String :=
  ⟨((s.data.dropWhile Char.isWhitespace).reverse.dropWhile
      Char.isWhitespace).reverse⟩

/-- A JavaScript value, as far as the queue service inspects values:
truthiness, `typeof`, `instanceof Array`, `Object.keys(...).length`,
property access (in particular `.length`, `.targetType`), `trim`, `indexOf`. -/
inductive JSVal where
  | null
  | undefined
  | str (s : String)
  | num (n : Int)
  | bool (b : Bool)
  | arr (xs : List JSVal)
  | obj (fields : List (String × JSVal))

namespace JSVal

/-- JavaScript truthiness: `null`, `undefined`, `""`, `0`, `false` are falsy;
every array and object (including `{}` and `[]`) is truthy. -/
def truthy : JSVal → Bool
  | .null => false
  | .undefined => false
  | .str s => s ≠ ""
  | .num n => n ≠ 0
  | .bool b => b
  | .arr _ => true
  | .obj _ => true

/-- `typeof v === "object"` (true for `null`, arrays and plain objects). -/
def typeofObject : JSVal → Bool
  | .null => true
  | .arr _ => true
  | .obj _ => true
  | _ => false

/-- `typeof v === "string"`. -/
def typeofString : JSVal → Bool
  | .str _ => true
  | _ => false

/-- `v instanceof Array`. -/
def isArray : JSVal → Bool
  | .arr _ => true
  | _ => false

/-- `Object.keys(v).length` (for an array, the number of indices). -/
def objKeysLen : JSVal → Nat
  | .obj fs => fs.length
  | .arr xs => xs.length
  | _ => 0

/-- Property access `v.name` (absent property reads as `undefined`;
strings and arrays expose `length`). -/
def getProp (v : JSVal) (name : String) : JSVal :=
  match v with
  | .obj fs => ((fs.lookup name).getD .undefined)
  | .arr xs => if name = "length" then .num xs.length else .undefined
  | .str s => if name = "length" then .num s.length else .undefined
  | _ => .undefined

/-- `v.length` as a JS value. -/
def lengthProp (v : JSVal) : JSVal := v.getProp "length"

/-- The JS test `v && v.length` used by the read paths: truthy and with a
truthy `length` property. -/
def truthyWithLength (v : JSVal) : Bool := v.truthy && v.lengthProp.truthy

/-- `v === undefined`. -/
def isUndefined : JSVal → Bool
  | .undefined => true
  | _ => false

/-- `v.indexOf(s) !== -1` for an array, with `===` comparison against the
string `s` (only equal string elements match). -/
def arrContainsStr (v : JSVal) (s : String) : Bool :=
  match v with
  | .arr xs => xs.any (fun x => match x with | .str t => t = s | _ => false)
  | _ => false

/-- The underlying string of a string value (only consulted after a
`typeof v === "string"` guard). -/
def strVal : JSVal → String
  | .str s => s
  | _ => ""

/-- Property assignment `v.name = x` on an object (used for
`dataObj.key = name`, `dataObj.store = [...]`, `dataObj.value = ...`). -/
def setProp (v : JSVal) (name : String) (x : JSVal) : JSVal :=
  match v with
  | .obj fs =>
      if (fs.lookup name).isSome then
        .obj (fs.map (fun p => if p.1 = name then (name, x) else p))
      else
        .obj (fs ++ [(name, x)])
  | other => other

/-- The check `!v || typeof v !== "string" || v.trim() === ""` shared by the
identifier and key validations. -/
def blankString (v : JSVal) : Bool :=
  ¬v.truthy || ¬v.typeofString || jsTrim v.strVal = ""

end JSVal

/-- One adapter event, recorded so that side effects (in particular the
last-read timestamp writes to `registeredServices`) are observable. -/
inductive OpEv where
  | getE (group field : String)
  | setE (group field : String) (v : JSVal)
  | delE (group field : String)
  | listE (group : String)

/-- First value bound to a key in an association list. -/
def assocFind (k : String × String) :
    List ((String × String) × JSVal) → Option JSVal
  | [] => none
  | (k', v) :: t => if k = k' then some v else assocFind k t

/-- Bind a key in an association list: update the existing entry in place, or
append a fresh one at the end (a hash field write). -/
def assocUpdate (k : String × String) (x : JSVal) :
    List ((String × String) × JSVal) → List ((String × String) × JSVal)
  | [] => [(k, x)]
  | (k', v) :: t => if k = k' then (k, x) :: t else (k', v) :: assocUpdate k x t

/-- The physical hash store behind the redis Backend Adapter: an association
list from (group, field) to value, in insertion order. -/
structure Store where
  tbl : List ((String × String) × JSVal)

namespace Store

/-- Value stored under (group, field), if any. -/
def lookupH (st : Store) (g f : String) : Option JSVal :=
  assocFind (g, f) st.tbl

/-- Modelled from the spec, §4.4: `getField(group, field) -> value|absent`;
an absent field reads as `null` (falsy), per the redis convention. -/
def getH (st : Store) (g f : String) : JSVal :=
  (st.lookupH g f).getD .null

/-- Modelled from the spec, §4.4: `setField` stores the value as given,
updating in place or appending a fresh field. -/
def setH (st : Store) (g f : String) (v : JSVal) : Store :=
  ⟨assocUpdate (g, f) v st.tbl⟩

/-- Modelled from the spec, §4.4: `deleteField` removes the field; the ack is
the number of removed fields (`1` if it was present, `0` otherwise). -/
def delH (st : Store) (g f : String) : Store × JSVal :=
  (⟨st.tbl.filter (fun p => p.1 ≠ (g, f))⟩,
   .num (if (st.lookupH g f).isSome then 1 else 0))

/-- Modelled from the spec, §4.4: `listFields(group)` — the field names of a
group, in insertion order. -/
def listH (st : Store) (g : String) : List String :=
  (st.tbl.filter (fun p => p.1.1 = g)).map (fun p => p.1.2)

end Store

/-- Fault oracle for the Backend Adapter: a `some msg` entry makes the
corresponding adapter call fail with that error instead of acting on the
store.  `redis_io` is not part of the repository; errors it may propagate are
modelled through this oracle. -/
structure Faults where
  onGet : String → String → Option String
  onSet : String → String → Option String
  onDel : String → String → Option String
  onList : String → Option String

/-- The fault-free adapter: every call succeeds. -/
def noFaults : Faults :=
  ⟨fun _ _ => none, fun _ _ => none, fun _ _ => none, fun _ => none⟩

/-- The reserved meta-group holding registration timestamps
(`this.servicesInfo` in the source). -/
def servicesInfo : String := "registeredServices"

/-- `validateQueueFields` of src/ValidateStoreFields.js: throws when the
callback is missing, otherwise returns the first failing check's message, or
`none` (JS `false`) when the request is valid.  `hasCallback` states that a
callback function was supplied; `skipKey` models the `{key : true}`
skip-set used by the list operations. -/
def validateQueueFields (fields : JSVal) (hasCallback : Bool) (skipKey : Bool) :
    Except String (Option String) :=
  if ¬hasCallback then
    .error "Callback is expected and must be a function"
  else if ¬fields.truthy || ¬fields.typeofObject || fields.objKeysLen = 0 then
    .ok (some "\x27Queue data\x27 is either missing or not in the specified format")
  else if (fields.getProp "identifier").blankString then
    .ok (some "\x27Identifier\x27 is either missing or not in the specified format")
  else if ¬skipKey && (fields.getProp "key").blankString then
    .ok (some "\x27Key\x27 is either missing or not in the specified format")
  else if ¬(fields.getProp "store").isUndefined
      && (¬(fields.getProp "store").isArray || (fields.getProp "store").objKeysLen = 0) then
    .ok (some "\x27Store\x27 value is either blank or not in the specified format")
  else
    .ok none

/-- The per-backend registration error message of the dispatch paths. -/
def notRegisteredMsg (identifier : String) : String :=
  "This service is not registered with redis store for the \x27" ++ identifier
    ++ "\x27 identifier"

/-- The in-memory state of a `QueueHandler` instance:
`connectionHandler.redis.serviceName`, `connectionHandler.redis.identifierSet`
and the `redisReadDate` slot (`none` models both `undefined` and `null`). -/
structure Handler where
  serviceName : String
  identifierSet : List String
  redisReadDate : Option String

/-- The constructor's registration loop (src/index.js lines 43–73): for each
identifier, skip it when blank after trimming, otherwise push the trimmed name
and run the get-then-maybe-set waterfall against the `registeredServices`
meta-group.  A get error stops the loop and is returned; a set error is
swallowed (`waterfallCallback(null, status)` discards it).  Returns the
accumulated `identifierSet`, the store, and the first get error if any. -/
def registerIds (F : Faults) (sn date : String) :
    List String → Store → List String → List String × Store × Option String
  | [], st, acc => (acc, st, none)
  | idName :: rest, st, acc =>
    if jsTrim idName = "" then
      registerIds F sn date rest st acc
    else
      let acc' := acc ++ [jsTrim idName]
      let key := sn ++ "_" ++ jsTrim idName
      match F.onGet servicesInfo key with
      | some e => (acc', st, some e)
      | none =>
        if (st.getH servicesInfo key).truthy then
          registerIds F sn date rest st acc'
        else
          match F.onSet servicesInfo key with
          | some _ => registerIds F sn date rest st acc'
          | none =>
              registerIds F sn date rest (st.setH servicesInfo key (.str date)) acc'

/-- The `QueueHandler` constructor after schema validation (src/index.js
lines 33–83): `validation.elements` holds exactly the schema's one `redis`
entry, so the `async.eachOf` over it is the single redis case; a propagated
error reaches `throw new Error(err)` and no instance is produced.  `date` is
the timestamp formatted once at line 35. -/
def mkHandler (F : Faults) (serviceName : String) (identifierSet : List String)
    (date : String) (st : Store) : Except String (Handler × Store) :=
  match registerIds F serviceName date identifierSet st [] with
  | (acc, st', none) => .ok (⟨serviceName, acc, none⟩, st')
  | (_, _, some e) => .error e

/-- Outcome of a public operation: an exception raised to the caller
(`throw new Error(...)`), a callback invocation with the error argument and
the `result.redis` payload, or a silent `return true` on the no-callback
success tail of insert/delete. -/
inductive Outcome (ρ : Type) where
  | thrown (msg : String)
  | cb (err : Option String) (res : ρ)
  | retTrue

/-- The dispatch skip test of the current operations (src/index.js lines
106–108, 156–158, 313–315): a backend's leg is skipped when `store` is
supplied and does not contain the backend's name — so an empty `store`
skips every backend. -/
def storeLegSkipped (store : JSVal) (serviceStore : String) : Bool :=
  ¬store.isUndefined && ¬store.arrContainsStr serviceStore

/-- Result of `pushToQueue`: outcome, resulting store, adapter-call trace. -/
structure PushResult where
  out : Outcome Unit
  st : Store
  tr : List OpEv

/-- `pushToQueue` of src/index.js (lines 95–139): validation (which throws
when the callback is missing), the value and `targetType` checks, then the
single redis leg of the dispatch loop. -/
def pushToQueue (F : Faults) (h : Handler) (st : Store) (queueData : JSVal)
    (hasCallback : Bool) : PushResult :=
  match validateQueueFields queueData hasCallback false with
  | .error m => ⟨.thrown m, st, []⟩
  | .ok (some m) => ⟨if hasCallback then .cb (some m) () else .thrown m, st, []⟩
  | .ok none =>
    let v := queueData.getProp "value"
    if ¬v.truthy || ¬v.typeofObject || v.objKeysLen = 0 then
      let m := "\x27Value\x27 is either missing or not in the specified format"
      ⟨if hasCallback then .cb (some m) () else .thrown m, st, []⟩
    else if ¬(v.getProp "targetType").truthy || ¬(v.getProp "targetType").isArray
        || (v.getProp "targetType").objKeysLen = 0 then
      let m := "\x27Target type\x27 is either missing or not in the specified format"
      ⟨if hasCallback then .cb (some m) () else .thrown m, st, []⟩
    else
      let idS := (queueData.getProp "identifier").strVal
      let keyS := (queueData.getProp "key").strVal
      let leg : Store × List OpEv × Option String :=
        if storeLegSkipped (queueData.getProp "store") "redis" then
          (st, [], none)
        else if ¬h.identifierSet.contains idS then
          (st, [], some (notRegisteredMsg idS))
        else
          match F.onSet idS keyS with
          | some e => (st, [.setE idS keyS (queueData.getProp "value")], some e)
          | none =>
              (st.setH idS keyS (queueData.getProp "value"),
               [.setE idS keyS (queueData.getProp "value")], none)
      if hasCallback then ⟨.cb leg.2.2 (), leg.1, leg.2.1⟩
      else match leg.2.2 with
        | some e => ⟨.thrown e, leg.1, leg.2.1⟩
        | none => ⟨.retTrue, leg.1, leg.2.1⟩

/-- Result of `readFromQueue`: outcome carrying `result.redis` (absent when
the `result` object has no `redis` entry), resulting store, trace. -/
structure ReadResult where
  out : Outcome (Option JSVal)
  st : Store
  tr : List OpEv

/-- `readFromQueue` of src/index.js (lines 149–195): validation, the single
redis leg; the backend value is reported in `result.redis` only when it is
truthy with a truthy `length` (`if(response && response.length)`), while the
`registeredServices` timestamp write happens whenever the value is truthy
(`if(!response) return`), stamped with `this.redisReadDate || now`; the
timestamp write's own error is discarded (`waterfallCallback(null, status)`).
-/
def readFromQueue (F : Faults) (h : Handler) (st : Store) (queueData : JSVal)
    (hasCallback : Bool) (now : String) : ReadResult :=
  match validateQueueFields queueData hasCallback false with
  | .error m => ⟨.thrown m, st, []⟩
  | .ok (some m) => ⟨.cb (some m) none, st, []⟩
  | .ok none =>
    let idS := (queueData.getProp "identifier").strVal
    let keyS := (queueData.getProp "key").strVal
    if storeLegSkipped (queueData.getProp "store") "redis" then
      ⟨.cb none none, st, []⟩
    else if ¬h.identifierSet.contains idS then
      ⟨.cb (some (notRegisteredMsg idS)) none, st, []⟩
    else
      match F.onGet idS keyS with
      | some e => ⟨.cb (some e) none, st, [.getE idS keyS]⟩
      | none =>
        let v := st.getH idS keyS
        let res := if v.truthyWithLength then some v else none
        if ¬v.truthy then
          ⟨.cb none res, st, [.getE idS keyS]⟩
        else
          let ts := h.redisReadDate.getD now
          let metaKey := h.serviceName ++ "_" ++ idS
          match F.onSet servicesInfo metaKey with
          | some _ =>
              ⟨.cb none res, st, [.getE idS keyS, .setE servicesInfo metaKey (.str ts)]⟩
          | none =>
              ⟨.cb none res, st.setH servicesInfo metaKey (.str ts),
               [.getE idS keyS, .setE servicesInfo metaKey (.str ts)]⟩

/-- Result of `readKeysAndValuesFromQueue`: outcome carrying `result.redis`
(the array of per-key `dataObj` entries, absent when the key listing was
empty), resulting store, resulting handler (`redisReadDate` is mutated by
this operation), trace. -/
structure ReadKVResult where
  out : Outcome (Option (List JSVal))
  st : Store
  h : Handler
  tr : List OpEv

/-- The inner `async.each(keyList, ...)` of `readKeysAndValuesFromQueue`
(src/index.js lines 269–282): for each key name, copy the request, set
`dataObj.key = name` and `dataObj.store = ["redis"]`, call `readFromQueue`,
and push `dataObj` (with `dataObj.value = response.redis`) when
`response && response.redis && response.redis.length`; the first error stops
the iteration.  `laterNow` gives each per-key read its own wall-clock time,
so that sharing one batch timestamp is the override's doing, not the clock's.
Returns the accumulated entries, the store, the trace, and the first error. -/
def readKVLoop (F : Faults) (h : Handler) (queueData : JSVal)
    (laterNow : Nat → String) :
    List String → Nat → Store → List JSVal →
    List JSVal × Store × List OpEv × Option String
  | [], _, st, acc => (acc, st, [], none)
  | name :: rest, i, st, acc =>
    let dataObj := (queueData.setProp "key" (.str name)).setProp "store"
        (.arr [.str "redis"])
    let r := readFromQueue F h st dataObj true (laterNow i)
    match r.out with
    | .cb err res =>
      let hit := match res with
        | some v => v.truthy && v.lengthProp.truthy
        | none => false
      let acc' := if hit then
          acc ++ [dataObj.setProp "value" (res.getD .undefined)]
        else acc
      match err with
      | some e => (acc', r.st, r.tr, some e)
      | none =>
        let next := readKVLoop F h queueData laterNow rest (i + 1) r.st acc'
        (next.1, next.2.1, r.tr ++ next.2.2.1, next.2.2.2)
    | .thrown m => (acc, r.st, r.tr, some m)
    | .retTrue => (acc, r.st, r.tr, none)

/-- `readKeysAndValuesFromQueue` of src/index.js (lines 242–296): validation
with the `key` check skipped, the single redis leg; `getHashKey` lists the
group's fields and its callback assigns `this.redisReadDate` (the batch
timestamp `nowList`); a non-empty key list initializes `result.redis = []`
and runs the per-key loop; the waterfall's final callback unconditionally
resets `this.redisReadDate` to `null`. -/
def readKeysAndValuesFromQueue (F : Faults) (h : Handler) (st : Store)
    (queueData : JSVal) (hasCallback : Bool) (nowList : String)
    (laterNow : Nat → String) : ReadKVResult :=
  match validateQueueFields queueData hasCallback true with
  | .error m => ⟨.thrown m, st, h, []⟩
  | .ok (some m) => ⟨.cb (some m) none, st, h, []⟩
  | .ok none =>
    let idS := (queueData.getProp "identifier").strVal
    if storeLegSkipped (queueData.getProp "store") "redis" then
      ⟨.cb none none, st, h, []⟩
    else if ¬h.identifierSet.contains idS then
      ⟨.cb (some (notRegisteredMsg idS)) none, st, h, []⟩
    else
      match F.onList idS with
      | some e =>
          ⟨.cb (some e) none, st, { h with redisReadDate := none }, [.listE idS]⟩
      | none =>
        let keys := st.listH idS
        if keys.isEmpty then
          ⟨.cb none none, st, { h with redisReadDate := none }, [.listE idS]⟩
        else
          let hActive := { h with redisReadDate := some nowList }
          let inner := readKVLoop F hActive queueData laterNow keys 0 st []
          ⟨.cb inner.2.2.2 (some inner.1), inner.2.1,
           { h with redisReadDate := none }, .listE idS :: inner.2.2.1⟩

/-- Result of `deleteKeyFromQueue`: outcome carrying `result.redis` (the
delete ack when truthy), resulting store, trace. -/
structure DelResult where
  out : Outcome (Option JSVal)
  st : Store
  tr : List OpEv

/-- `deleteKeyFromQueue` of src/index.js (lines 306–342): validation (which
throws when the callback is missing), the single redis leg invoking
`deleteHashKey`, with the no-callback tail throwing the error or returning
`true`. -/
def deleteKeyFromQueue (F : Faults) (h : Handler) (st : Store)
    (queueData : JSVal) (hasCallback : Bool) : DelResult :=
  match validateQueueFields queueData hasCallback false with
  | .error m => ⟨.thrown m, st, []⟩
  | .ok (some m) => ⟨.cb (some m) none, st, []⟩
  | .ok none =>
    let idS := (queueData.getProp "identifier").strVal
    let keyS := (queueData.getProp "key").strVal
    let leg : Store × List OpEv × Option String × Option JSVal :=
      if storeLegSkipped (queueData.getProp "store") "redis" then
        (st, [], none, none)
      else if ¬h.identifierSet.contains idS then
        (st, [], some (notRegisteredMsg idS), none)
      else
        match F.onDel idS keyS with
        | some e => (st, [.delE idS keyS], some e, none)
        | none =>
          let d := st.delH idS keyS
          (d.1, [.delE idS keyS], none, if d.2.truthy then some d.2 else none)
    if hasCallback then ⟨.cb leg.2.2.1 leg.2.2.2, leg.1, leg.2.1⟩
    else match leg.2.2.1 with
      | some e => ⟨.thrown e, leg.1, leg.2.1⟩
      | none => ⟨.retTrue, leg.1, leg.2.1⟩

/-- The store normalization of the legacy `pushToQueue`
(src/unnamed/part_000 line 110): an omitted `store` becomes `new Array()`. -/
def legacyNormalizeStore (store : JSVal) : JSVal :=
  if store.isUndefined then .arr [] else store

/-- The legacy dispatch participation test (src/unnamed/part_000 lines
112–114): a backend's leg runs unless the normalized `store` is non-empty
and does not contain the backend's name — so an empty `store` lets every
backend participate. -/
def legacyStoreParticipates (store : JSVal) (serviceStore : String) : Bool :=
  ¬(store.objKeysLen ≠ 0 && ¬store.arrContainsStr serviceStore)

/-! Concrete fixtures: the construction input of the specification's §8
example (one redis backend named `service`, identifier set `["orders"]`). -/

/-- First-seen timestamp used by the example construction. -/
def exampleDate : String := "2020-01-01T00:00:00"

/-- The handler built by the example construction. -/
def exampleHandler : Handler := ⟨"service", ["orders"], none⟩

/-- A backend with nothing persisted. -/
def emptyStore : Store := ⟨[]⟩

/-- The backend after the example construction: the registration key
`service_orders` holds the first-seen timestamp. -/
def exampleRegStore : Store :=
  ⟨[((servicesInfo, "service_orders"), .str exampleDate)]⟩

/-- The §8 example insert value `{targetType : ["email"]}`. -/
def exampleValue : JSVal := .obj [("targetType", .arr [.str "email"])]

/-- An insert request for the `orders` identifier. -/
def insertReq (key : String) (v : JSVal) : JSVal :=
  .obj [("identifier", .str "orders"), ("key", .str key), ("value", v)]

/-- A read request (identifier and key only). -/
def readReq (id key : String) : JSVal :=
  .obj [("identifier", .str id), ("key", .str key)]

/-- A list request (identifier only). -/
def listReq : JSVal := .obj [("identifier", .str "orders")]

/-- The store after inserting `o1` with the example value. -/
def storeAfterInsert : Store :=
  (pushToQueue noFaults exampleHandler exampleRegStore
    (insertReq "o1" exampleValue) true).st

/-- The store after further inserting `k2` with the example value. -/
def storeAfterTwoInserts : Store :=
  (pushToQueue noFaults exampleHandler storeAfterInsert
    (insertReq "k2" exampleValue) true).st

/-- The result of deleting `o1` from the example store. -/
def deleteO1 : DelResult :=
  deleteKeyFromQueue noFaults exampleHandler storeAfterInsert
    (insertReq "o1" exampleValue) true

/-- An adapter that fails the set-field write of the `service_orders`
registration key (and nothing else). -/
def setFaultOnRegistration : Faults :=
  ⟨fun _ _ => none,
   fun g f => if g = servicesInfo && f = "service_orders" then some "set failed"
     else none,
   fun _ _ => none, fun _ => none⟩

/-- An adapter that fails every get-field lookup in the meta-group. -/
def getFaultOnRegistration : Faults :=
  ⟨fun g _ => if g = servicesInfo then some "get failed" else none,
   fun _ _ => none, fun _ _ => none, fun _ => none⟩

/-- An adapter whose get-field lookup fails only for the registration key of
the second example identifier, `service_b`. -/
def getFaultOnSecond : Faults :=
  ⟨fun g f => if g = servicesInfo && f = "service_b" then some "get failed b"
     else none,
   fun _ _ => none, fun _ _ => none, fun _ => none⟩

/-- Is an event a set-field write to the `registeredServices` meta-group? -/
def isMetaWrite : OpEv → Bool
  | .setE g _ _ => g = servicesInfo
  | _ => false

/-- C1: at the specification §8 example input, Insert succeeds and stores the
value, and Delete followed by ReadOne reports no result and no error as
claimed — but ReadOne right after Insert also reports no redis entry in
`resultsByBackend`: the inserted plain-object value has no `length` property,
so the `if(response && response.length)` guard of `readFromQueue` never files
it, refuting the Insert-then-ReadOne half of the claim. -/
theorem insert_read_delete_read_example :
    (pushToQueue noFaults exampleHandler exampleRegStore
        (insertReq "o1" exampleValue) true).out = .cb none () ∧
    storeAfterInsert.lookupH "orders" "o1" = some exampleValue ∧
    (readFromQueue noFaults exampleHandler storeAfterInsert
        (insertReq "o1" exampleValue) true "2020-01-01T00:00:05").out
      = .cb none none ∧
    deleteO1.out = .cb none (some (.num 1)) ∧
    (readFromQueue noFaults exampleHandler deleteO1.st
        (insertReq "o1" exampleValue) true "2020-01-01T00:00:09").out
      = .cb none none :=
  ⟨rfl, rfl, rfl, rfl, rfl⟩

/-- C2: Insert and Delete invoked without a callback do not execute: the
validation step (`validateQueueFields`, which both operations call with the
supplied callback) throws `Callback is expected and must be a function`
before any dispatch, leaving the store untouched and making no adapter call —
against the claim (and the jsdoc marking `callback` optional) that the
operation still runs and only operation errors are thrown. -/
theorem push_and_delete_without_callback_throw :
    (pushToQueue noFaults exampleHandler exampleRegStore
        (insertReq "o1" exampleValue) false).out
      = .thrown "Callback is expected and must be a function" ∧
    (pushToQueue noFaults exampleHandler exampleRegStore
        (insertReq "o1" exampleValue) false).st = exampleRegStore ∧
    (pushToQueue noFaults exampleHandler exampleRegStore
        (insertReq "o1" exampleValue) false).tr = [] ∧
    (deleteKeyFromQueue noFaults exampleHandler storeAfterInsert
        (insertReq "o1" exampleValue) false).out
      = .thrown "Callback is expected and must be a function" ∧
    (deleteKeyFromQueue noFaults exampleHandler storeAfterInsert
        (insertReq "o1" exampleValue) false).st = storeAfterInsert ∧
    (deleteKeyFromQueue noFaults exampleHandler storeAfterInsert
        (insertReq "o1" exampleValue) false).tr = [] :=
  ⟨rfl, rfl, rfl, rfl, rfl, rfl⟩

/-- C4: after inserting keys `o1` and `k2` under `orders`,
ListKeysAndValues returns `result.redis = []` — neither key-value pair, since
the plain-object values are dropped by the `response.redis.length` guard —
and writes the identifier meta-record twice (once per key), both writes
carrying the single batch timestamp; this refutes both the
"returns all n keys with their values" and the "single update, not n
separate updates" parts of the claim. -/
theorem list_keys_and_values_example :
    (readKeysAndValuesFromQueue noFaults exampleHandler storeAfterTwoInserts
        listReq true "2020-01-01T00:01:00"
        (fun i => "2020-01-01T00:01:0" ++ toString (i + 1))).out
      = .cb none (some []) ∧
    (readKeysAndValuesFromQueue noFaults exampleHandler storeAfterTwoInserts
        listReq true "2020-01-01T00:01:00"
        (fun i => "2020-01-01T00:01:0" ++ toString (i + 1))).tr
      = [.listE "orders", .getE "orders" "o1",
         .setE servicesInfo "service_orders" (.str "2020-01-01T00:01:00"),
         .getE "orders" "k2",
         .setE servicesInfo "service_orders" (.str "2020-01-01T00:01:00")] ∧
    ((readKeysAndValuesFromQueue noFaults exampleHandler storeAfterTwoInserts
        listReq true "2020-01-01T00:01:00"
        (fun i => "2020-01-01T00:01:0" ++ toString (i + 1))).tr.countP isMetaWrite)
      = 2 :=
  ⟨rfl, rfl, rfl⟩

/-- C9: the two policies for a present-but-empty `store` filter coexist: the
shared validator reports it as a validation error, while the legacy
`pushToQueue` dispatch filter (src/unnamed/part_000) treats the normalized
empty array as "no filter" and lets the redis backend participate; the
current dispatch loops would instead skip every backend. -/
theorem empty_store_filter_policies :
    validateQueueFields (.obj [("identifier", .str "orders"), ("key", .str "o1"),
        ("store", .arr [])]) true false
      = .ok (some "\x27Store\x27 value is either blank or not in the specified format") ∧
    legacyStoreParticipates (legacyNormalizeStore (.arr [])) "redis" = true ∧
    storeLegSkipped (.arr []) "redis" = true :=
  ⟨rfl, rfl, rfl⟩

/-- C3 counterexample: a Backend Adapter error in the first-seen timestamp
write (set-field, step d) is not fatal: construction completes and returns a
usable instance with the write silently dropped
(`waterfallCallback(null, status)` discards the error). -/
theorem set_fault_does_not_abort_construction :
    mkHandler setFaultOnRegistration "service" ["orders"] exampleDate emptyStore
      = .ok (exampleHandler, emptyStore) :=
  rfl

/-- C5 counterexample: two inserts identical except for a field inside
`value`: with `targetType : ["email"]` the insert is accepted, with a
non-empty value lacking `targetType` it is rejected — so a field inside
`value` does determine whether the insert is accepted. -/
theorem value_field_determines_insert_acceptance :
    (pushToQueue noFaults exampleHandler exampleRegStore
        (insertReq "o1" exampleValue) true).out = .cb none () ∧
    (pushToQueue noFaults exampleHandler exampleRegStore
        (insertReq "o1" (.obj [("payload", .str "x")])) true).out
      = .cb (some "\x27Target type\x27 is either missing or not in the specified format") () :=
  ⟨rfl, rfl⟩

/-- C7 counterexample: supplying the same identifier twice registers it
twice — `identifierSet` ends as `["a", "a"]`, in which `a` appears twice, so
the registered set is not de-duplicated. -/
theorem duplicate_identifier_kept_twice :
    (mkHandler noFaults "service" ["a", "a"] exampleDate emptyStore).map
        (fun x => x.1.identifierSet) = .ok ["a", "a"] ∧
    List.count "a" ["a", "a"] = 2 :=
  ⟨rfl, rfl⟩

/-- A hash field write binds its own key. -/
theorem assocFind_assocUpdate_self (k : String × String) (x : JSVal)
    (l : List ((String × String) × JSVal)) :
    assocFind k (assocUpdate k x l) = some x := by
  induction l with
  | nil => simp [assocFind, assocUpdate]
  | cons p t ih =>
    obtain ⟨pk, pv⟩ := p
    by_cases hp : k = pk
    · simp [assocFind, assocUpdate, hp]
    · simp [assocFind, assocUpdate, hp, ih]

/-- A hash field write leaves every other key unchanged. -/
theorem assocFind_assocUpdate_ne (k k' : String × String) (x : JSVal)
    (l : List ((String × String) × JSVal)) (hne : k' ≠ k) :
    assocFind k' (assocUpdate k x l) = assocFind k' l := by
  induction l with
  | nil => simp [assocFind, assocUpdate, hne]
  | cons p t ih =>
    obtain ⟨pk, pv⟩ := p
    by_cases hp : k = pk
    · subst hp
      simp [assocFind, assocUpdate, hne]
    · simp [assocFind, assocUpdate, hp, ih]

/-- `setH` then `lookupH` at the same (group, field) yields the value. -/
theorem lookupH_setH_self (st : Store) (g f : String) (x : JSVal) :
    (st.setH g f x).lookupH g f = some x :=
  assocFind_assocUpdate_self (g, f) x st.tbl

/-- `setH` leaves every other (group, field) unchanged. -/
theorem lookupH_setH_ne (st : Store) (g f g' f' : String) (x : JSVal)
    (hne : (g', f') ≠ (g, f)) :
    (st.setH g f x).lookupH g' f' = st.lookupH g' f' :=
  assocFind_assocUpdate_ne (g, f) (g', f') x st.tbl hne

/-- The registration loop never overwrites a meta-group entry whose stored
value is truthy: it writes a key only after its get-field lookup came back
falsy. -/
theorem registerIds_preserves (F : Faults) (sn d : String) (k : String)
    (v : JSVal) (hv : v.truthy = true) :
    ∀ (ids : List String) (st : Store) (acc : List String),
      st.lookupH servicesInfo k = some v →
      (registerIds F sn d ids st acc).2.1.lookupH servicesInfo k = some v := by
  intro ids
  induction ids with
  | nil => intro st acc hk; exact hk
  | cons idName rest ih =>
    intro st acc hk
    unfold registerIds
    by_cases h1 : jsTrim idName = ""
    · simp only [h1, if_pos rfl]
      exact ih st acc hk
    · simp only [if_neg h1]
      cases hg : F.onGet servicesInfo (sn ++ "_" ++ jsTrim idName) with
      | some e => exact hk
      | none =>
        by_cases h2 : (st.getH servicesInfo (sn ++ "_" ++ jsTrim idName)).truthy
        · simp only [h2, if_pos rfl]
          exact ih st _ hk
        · have hkk : sn ++ "_" ++ jsTrim idName ≠ k := by
            intro he
            rw [he] at h2
            unfold Store.getH at h2
            rw [hk] at h2
            simp [hv] at h2
          simp only [h2]
          cases hs : F.onSet servicesInfo (sn ++ "_" ++ jsTrim idName) with
          | some e => exact ih st _ hk
          | none =>
            refine ih _ _ ?_
            rw [lookupH_setH_ne]
            · exact hk
            · intro he
              exact hkk (congrArg Prod.snd he).symm

/-- With no get-field faults, the registration loop registers exactly the
trimmed non-blank identifiers (in order, duplicates kept) and reports no
error, whatever the set-field faults. -/
theorem registerIds_no_get_fault (F : Faults) (sn d : String)
    (hF : ∀ g f, F.onGet g f = none) :
    ∀ (ids : List String) (st : Store) (acc : List String),
      (registerIds F sn d ids st acc).1
          = acc ++ (ids.map jsTrim).filter (fun s => s ≠ "") ∧
      (registerIds F sn d ids st acc).2.2 = none := by
  intro ids
  induction ids with
  | nil => intro st acc; simp [registerIds]
  | cons idName rest ih =>
    intro st acc
    unfold registerIds
    by_cases h1 : jsTrim idName = ""
    · simpa [h1] using ih st acc
    · simp only [if_neg h1, hF]
      by_cases h2 : (st.getH servicesInfo (sn ++ "_" ++ jsTrim idName)).truthy
      · simpa [h2, h1] using ih st (acc ++ [jsTrim idName])
      · simp only [h2]
        cases hs : F.onSet servicesInfo (sn ++ "_" ++ jsTrim idName) with
        | some e => simpa [h1] using ih st (acc ++ [jsTrim idName])
        | none =>
          have hrec := ih (st.setH servicesInfo (sn ++ "_" ++ jsTrim idName)
            (.str d)) (acc ++ [jsTrim idName])
          simpa [h1] using hrec

/-- The registration loop stops with the error of the first identifier whose
get-field lookup faults, wherever that identifier stands in the list: the
non-blank identifiers before it (whose lookups are clean) are worked through,
then the faulting lookup aborts the loop. -/
theorem registerIds_first_get_fault (F : Faults) (sn d e idName : String)
    (rest : List String) (hb : jsTrim idName ≠ "")
    (hf : F.onGet servicesInfo (sn ++ "_" ++ jsTrim idName) = some e) :
    ∀ (pre : List String) (st : Store) (acc : List String),
      (∀ id ∈ pre, F.onGet servicesInfo (sn ++ "_" ++ jsTrim id) = none) →
      (registerIds F sn d (pre ++ idName :: rest) st acc).2.2 = some e := by
  intro pre
  induction pre with
  | nil =>
    intro st acc hclean
    rw [List.nil_append]
    unfold registerIds
    simp [hb, hf]
  | cons p pre' ih =>
    intro st acc hclean
    have hp : F.onGet servicesInfo (sn ++ "_" ++ jsTrim p) = none :=
      hclean p (List.mem_cons_self p pre')
    have hclean' : ∀ id ∈ pre',
        F.onGet servicesInfo (sn ++ "_" ++ jsTrim id) = none :=
      fun id hid => hclean id (List.mem_cons_of_mem p hid)
    rw [List.cons_append]
    unfold registerIds
    by_cases h1 : jsTrim p = ""
    · simp only [h1, if_pos rfl]
      exact ih st acc hclean'
    · simp only [if_neg h1, hp]
      by_cases h2 : (st.getH servicesInfo (sn ++ "_" ++ jsTrim p)).truthy
      · simp only [h2, if_pos rfl]
        exact ih st _ hclean'
      · simp only [h2]
        cases hs : F.onSet servicesInfo (sn ++ "_" ++ jsTrim p) with
        | some e2 => exact ih st _ hclean'
        | none => exact ih _ _ hclean'

/-- C3 amended: during construction, a Backend Adapter error from the
registration-key lookup (get-field, step b) is fatal and aborts construction
with that error, wherever in the identifier list the faulting identifier
stands (the clean lookups before it do not mask it); an error from the
first-seen timestamp write (set-field, step d) is silently swallowed, so
construction always succeeds when the get-field calls are clean, whatever
the set-field faults. -/
theorem construction_get_error_fatal_set_error_swallowed :
    (∀ (F : Faults) (sn d e idName : String) (pre rest : List String)
        (st : Store),
        (∀ id ∈ pre, F.onGet servicesInfo (sn ++ "_" ++ jsTrim id) = none) →
        jsTrim idName ≠ "" →
        F.onGet servicesInfo (sn ++ "_" ++ jsTrim idName) = some e →
        mkHandler F sn (pre ++ idName :: rest) d st = .error e) ∧
    (∀ (F : Faults) (sn d : String) (ids : List String) (st : Store),
        (∀ g f, F.onGet g f = none) →
        ∃ h st', mkHandler F sn ids d st = .ok (h, st')) := by
  constructor
  · intro F sn d e idName pre rest st hclean hb hf
    have h := registerIds_first_get_fault F sn d e idName rest hb hf pre st []
      hclean
    unfold mkHandler
    rcases hr : registerIds F sn d (pre ++ idName :: rest) st [] with
      ⟨acc, st2, err⟩
    rw [hr] at h
    dsimp only at h
    subst h
    rfl
  · intro F sn d ids st hF
    have h := registerIds_no_get_fault F sn d hF ids st []
    unfold mkHandler
    rcases hr : registerIds F sn d ids st [] with ⟨acc, st2, err⟩
    rw [hr] at h
    obtain ⟨-, h2⟩ := h
    dsimp only at h2
    subst h2
    exact ⟨_, _, rfl⟩

/-- C3 witness: a get-field fault on the second identifier of the list — the
first one registering cleanly — still aborts construction with that error. -/
theorem construction_get_error_fatal_set_error_swallowed_witness :
    mkHandler getFaultOnSecond "service" ["a", "b"] exampleDate emptyStore
      = .error "get failed b" :=
  construction_get_error_fatal_set_error_swallowed.1 getFaultOnSecond
    "service" exampleDate "get failed b" "b" ["a"] [] emptyStore
    (by intro id hid; simp at hid; subst hid; rfl) (by decide) rfl

/-- C6: registration is idempotent — construction leaves every meta-group
entry whose registration key is already present (with a truthy stored
timestamp) exactly as it was, so a second construction against the same
persisted backend preserves the timestamps written by the first. -/
theorem construction_preserves_existing_registration (F : Faults)
    (sn d k : String) (ids : List String) (st : Store) (v : JSVal)
    (h : Handler) (st' : Store)
    (hv : v.truthy = true)
    (hk : st.lookupH servicesInfo k = some v)
    (hok : mkHandler F sn ids d st = .ok (h, st')) :
    st'.lookupH servicesInfo k = some v := by
  have hp := registerIds_preserves F sn d k v hv ids st [] hk
  unfold mkHandler at hok
  rcases hr : registerIds F sn d ids st [] with ⟨acc, st2, err⟩
  rw [hr] at hok hp
  cases err with
  | none =>
    simp only [Except.ok.injEq, Prod.mk.injEq] at hok
    rw [← hok.2]
    exact hp
  | some e => cases hok

/-- C6 witness: construct once on an empty backend (writing the first-seen
timestamp), then construct again with a later date — the stored timestamp is
still the first one. -/
theorem construction_preserves_existing_registration_witness :
    exampleRegStore.lookupH servicesInfo "service_orders"
      = some (.str exampleDate) :=
  construction_preserves_existing_registration noFaults "service"
    "2021-06-01T00:00:00" "service_orders" ["orders"] exampleRegStore
    (.str exampleDate) exampleHandler exampleRegStore (by decide) rfl rfl

/-- C7 amended: after construction the registered `identifierSet` is exactly
the supplied identifiers trimmed, with blank entries silently skipped, in
order — duplicates are kept, not de-duplicated. -/
theorem identifier_set_trimmed_blanks_skipped_not_deduped
    (sn d : String) (ids : List String) (st : Store) :
    ∃ st', mkHandler noFaults sn ids d st
      = .ok (⟨sn, (ids.map jsTrim).filter (fun s => s ≠ ""), none⟩, st') := by
  have h := registerIds_no_get_fault noFaults sn d (fun _ _ => rfl) ids st []
  unfold mkHandler
  rcases hr : registerIds noFaults sn d ids st [] with ⟨acc, st2, err⟩
  rw [hr] at h
  obtain ⟨h1, h2⟩ := h
  dsimp only at h1 h2
  subst h2
  refine ⟨st2, ?_⟩
  simp only [List.nil_append] at h1
  rw [h1]

/-- C10: for any truthy stored value whose `length` property is not truthy
(such as the plain objects Insert stores), `readFromQueue` updates the
last-read timestamp in `registeredServices` — the write condition is only
`if(!response)` — yet reports no redis entry in `resultsByBackend`, whose
condition additionally demands `response.length`. -/
theorem read_truthy_lengthless (h : Handler) (st : Store)
    (idS keyS now : String) (v : JSVal)
    (hid : jsTrim idS ≠ "") (hkey : jsTrim keyS ≠ "")
    (hreg : h.identifierSet.contains idS = true)
    (hv : st.lookupH idS keyS = some v)
    (ht : v.truthy = true) (hl : v.lengthProp.truthy = false) :
    (readFromQueue noFaults h st (readReq idS keyS) true now).out
      = .cb none none ∧
    (readFromQueue noFaults h st (readReq idS keyS) true now).st.lookupH
        servicesInfo (h.serviceName ++ "_" ++ idS)
      = some (.str (h.redisReadDate.getD now)) ∧
    OpEv.setE servicesInfo (h.serviceName ++ "_" ++ idS)
        (.str (h.redisReadDate.getD now))
      ∈ (readFromQueue noFaults h st (readReq idS keyS) true now).tr := by
  have hid0 : idS ≠ "" := by
    intro he
    apply hid
    rw [he]
    rfl
  have hkey0 : keyS ≠ "" := by
    intro he
    apply hkey
    rw [he]
    rfl
  have hval : validateQueueFields (readReq idS keyS) true false = .ok none := by
    unfold validateQueueFields readReq
    simp [JSVal.getProp, JSVal.blankString, JSVal.truthy, JSVal.typeofString,
      JSVal.strVal, JSVal.typeofObject, JSVal.objKeysLen, JSVal.isUndefined,
      List.lookup, hid, hkey, hid0, hkey0]
  have hmem : idS ∈ h.identifierSet := by simpa using hreg
  unfold readFromQueue
  rw [hval]
  simp [storeLegSkipped, readReq, JSVal.getProp, List.lookup, JSVal.isUndefined,
    JSVal.arrContainsStr, JSVal.strVal, hmem, noFaults, Store.getH, hv,
    Option.getD, JSVal.truthyWithLength, ht, hl]
  exact lookupH_setH_self st servicesInfo (h.serviceName ++ "_" ++ idS)
    (.str (h.redisReadDate.getD now))

/-- C10 witness: reading back the §8 example insert — the `service_orders`
timestamp is stamped with the read time, while `resultsByBackend` stays
empty. -/
theorem read_truthy_lengthless_witness :
    (readFromQueue noFaults exampleHandler storeAfterInsert
        (readReq "orders" "o1") true "2020-01-01T00:00:05").out
      = .cb none none ∧
    (readFromQueue noFaults exampleHandler storeAfterInsert
        (readReq "orders" "o1") true "2020-01-01T00:00:05").st.lookupH
        servicesInfo "service_orders" = some (.str "2020-01-01T00:00:05") ∧
    OpEv.setE servicesInfo "service_orders" (.str "2020-01-01T00:00:05")
      ∈ (readFromQueue noFaults exampleHandler storeAfterInsert
          (readReq "orders" "o1") true "2020-01-01T00:00:05").tr :=
  read_truthy_lengthless exampleHandler storeAfterInsert "orders" "o1"
    "2020-01-01T00:00:05" exampleValue (by decide) (by decide) rfl rfl rfl rfl

/-- Every meta-group write `readFromQueue` makes is stamped with the active
`redisReadDate` override, falling back to the current time. -/
theorem readFromQueue_setE_stamp (F : Faults) (h : Handler) (st : Store)
    (q : JSVal) (cb : Bool) (now : String) (g f : String) (v : JSVal)
    (hm : OpEv.setE g f v ∈ (readFromQueue F h st q cb now).tr) :
    v = .str (h.redisReadDate.getD now) := by
  unfold readFromQueue at hm
  dsimp only at hm
  split at hm
  · simp at hm
  · simp at hm
  · split at hm
    · simp at hm
    · split at hm
      · simp at hm
      · split at hm
        · simp at hm
        · split at hm
          · simp at hm
          · split at hm
            · simp at hm
              exact hm.2.2
            · simp at hm
              exact hm.2.2

/-- While the batch override is active, every meta-group write made by the
per-key read loop carries the override timestamp, whatever each read's own
wall-clock time is. -/
theorem readKVLoop_setE_stamp (F : Faults) (hh : Handler) (q : JSVal)
    (laterNow : Nat → String) (ts : String) (hts : hh.redisReadDate = some ts) :
    ∀ (keys : List String) (i : Nat) (st : Store) (acc : List JSVal)
      (g f : String) (v : JSVal),
      OpEv.setE g f v ∈ (readKVLoop F hh q laterNow keys i st acc).2.2.1 →
      v = .str ts := by
  intro keys
  induction keys with
  | nil =>
    intro i st acc g f v hm
    simp [readKVLoop] at hm
  | cons name rest ih =>
    intro i st acc g f v hm
    unfold readKVLoop at hm
    dsimp only at hm
    split at hm
    · rename_i err res heq
      split at hm
      · dsimp only at hm
        have hst := readFromQueue_setE_stamp F hh st
          ((q.setProp "key" (.str name)).setProp "store" (.arr [.str "redis"]))
          true (laterNow i) g f v hm
        rw [hts] at hst
        exact hst
      · dsimp only at hm
        rw [List.mem_append] at hm
        cases hm with
        | inl hm1 =>
          have hst := readFromQueue_setE_stamp F hh st
            ((q.setProp "key" (.str name)).setProp "store" (.arr [.str "redis"]))
            true (laterNow i) g f v hm1
          rw [hts] at hst
          exact hst
        | inr hm2 => exact ih (i + 1) _ _ g f v hm2
    · dsimp only at hm
      have hst := readFromQueue_setE_stamp F hh st
        ((q.setProp "key" (.str name)).setProp "store" (.arr [.str "redis"]))
        true (laterNow i) g f v hm
      rw [hts] at hst
      exact hst
    · dsimp only at hm
      have hst := readFromQueue_setE_stamp F hh st
        ((q.setProp "key" (.str name)).setProp "store" (.arr [.str "redis"]))
        true (laterNow i) g f v hm
      rw [hts] at hst
      exact hst

/-- C8: starting from an empty `redisReadDate` slot, a ListKeysAndValues
batch leaves the slot empty again on every path (completion, empty listing,
list error, unregistered identifier, validation failure), and every
registration-timestamp write performed during the batch carries the single
batch timestamp taken at the key-listing step, not the per-read clock. -/
theorem read_timestamp_override_lifecycle (F : Faults) (h : Handler)
    (st : Store) (q : JSVal) (cb : Bool) (nowList : String)
    (laterNow : Nat → String) (h0 : h.redisReadDate = none) :
    (readKeysAndValuesFromQueue F h st q cb nowList laterNow).h.redisReadDate
      = none ∧
    ∀ (g f : String) (v : JSVal),
      OpEv.setE g f v
          ∈ (readKeysAndValuesFromQueue F h st q cb nowList laterNow).tr →
      v = .str nowList := by
  unfold readKeysAndValuesFromQueue
  dsimp only
  split
  · exact ⟨h0, fun g f v hm => by simp at hm⟩
  · exact ⟨h0, fun g f v hm => by simp at hm⟩
  · split
    · exact ⟨h0, fun g f v hm => by simp at hm⟩
    · split
      · exact ⟨h0, fun g f v hm => by simp at hm⟩
      · split
        · exact ⟨rfl, fun g f v hm => by simp at hm⟩
        · split
          · exact ⟨rfl, fun g f v hm => by simp at hm⟩
          · refine ⟨rfl, ?_⟩
            intro g f v hm
            dsimp only at hm
            rw [List.mem_cons] at hm
            cases hm with
            | inl hbad => simp at hbad
            | inr hin =>
              exact readKVLoop_setE_stamp F
                { h with redisReadDate := some nowList } q laterNow nowList rfl
                _ 0 st [] g f v hin

/-- C8 witness: the two-key batch of the §8 example scenario ends with the
override slot empty. -/
theorem read_timestamp_override_lifecycle_witness :
    (readKeysAndValuesFromQueue noFaults exampleHandler storeAfterTwoInserts
        listReq true "2020-01-01T00:01:00"
        (fun i => "2020-01-01T00:01:0" ++ toString (i + 1))).h.redisReadDate
      = none :=
  (read_timestamp_override_lifecycle noFaults exampleHandler
      storeAfterTwoInserts listReq true "2020-01-01T00:01:00"
      (fun i => "2020-01-01T00:01:0" ++ toString (i + 1)) rfl).1

/-- C5 amended: the outcome of an insert depends on `value` exactly through
the emptiness checks (truthy, object-typed, non-empty) and the `targetType`
field, which must be a non-empty array; any value passing both is accepted
and stored verbatim as an opaque payload — no other part of `value`
matters. -/
theorem insert_acceptance_depends_only_on_emptiness_and_target_type (v : JSVal) :
    (¬(v.truthy = true ∧ v.typeofObject = true ∧ v.objKeysLen ≠ 0) →
      (pushToQueue noFaults exampleHandler exampleRegStore (insertReq "o1" v)
          true).out
        = .cb (some "\x27Value\x27 is either missing or not in the specified format") ()) ∧
    ((v.truthy = true ∧ v.typeofObject = true ∧ v.objKeysLen ≠ 0) →
      (¬((v.getProp "targetType").truthy = true
          ∧ (v.getProp "targetType").isArray = true
          ∧ (v.getProp "targetType").objKeysLen ≠ 0) →
        (pushToQueue noFaults exampleHandler exampleRegStore (insertReq "o1" v)
            true).out
          = .cb (some "\x27Target type\x27 is either missing or not in the specified format") ())
      ∧ (((v.getProp "targetType").truthy = true
          ∧ (v.getProp "targetType").isArray = true
          ∧ (v.getProp "targetType").objKeysLen ≠ 0) →
        (pushToQueue noFaults exampleHandler exampleRegStore (insertReq "o1" v)
            true).out = .cb none ()
        ∧ (pushToQueue noFaults exampleHandler exampleRegStore (insertReq "o1" v)
            true).st.lookupH "orders" "o1" = some v)) := by
  have hval : validateQueueFields (insertReq "o1" v) true false = .ok none := rfl
  have hgv : (insertReq "o1" v).getProp "value" = v := rfl
  refine ⟨?_, ?_⟩
  · intro hno
    unfold pushToQueue
    rw [hval]
    dsimp only
    rw [hgv]
    rcases not_and_or.mp hno with hA | hBC
    · have hA' : v.truthy = false := by
        revert hA
        cases v.truthy <;> simp
      simp [hA']
    · rcases not_and_or.mp hBC with hB | hC
      · have hB' : v.typeofObject = false := by
          revert hB
          cases v.typeofObject <;> simp
        simp [hB']
      · have hC' : v.objKeysLen = 0 := by
          revert hC
          simp
        simp [hC']
  · intro hyes
    obtain ⟨hA, hB, hC⟩ := hyes
    refine ⟨?_, ?_⟩
    · intro hno
      unfold pushToQueue
      rw [hval]
      dsimp only
      rw [hgv]
      rcases not_and_or.mp hno with hD | hEF
      · have hD' : (v.getProp "targetType").truthy = false := by
          revert hD
          cases (v.getProp "targetType").truthy <;> simp
        simp [hA, hB, hC, hD']
      · rcases not_and_or.mp hEF with hE | hF
        · have hE' : (v.getProp "targetType").isArray = false := by
            revert hE
            cases (v.getProp "targetType").isArray <;> simp
          simp [hA, hB, hC, hE']
        · have hF' : (v.getProp "targetType").objKeysLen = 0 := by
            revert hF
            simp
          simp [hA, hB, hC, hF']
    · intro hyes2
      obtain ⟨hD, hE, hF⟩ := hyes2
      unfold pushToQueue
      rw [hval]
      dsimp only
      rw [hgv]
      have hga : (insertReq "o1" v).getProp "identifier" = .str "orders" := rfl
      have hgk : (insertReq "o1" v).getProp "key" = .str "o1" := rfl
      have hgs : (insertReq "o1" v).getProp "store" = .undefined := rfl
      have hsk : storeLegSkipped JSVal.undefined "redis" = false := rfl
      constructor
      · simp [hA, hB, hC, hD, hE, hF, hga, hgk, hgs, hsk, JSVal.strVal,
          exampleHandler, noFaults]
      · simp [hA, hB, hC, hD, hE, hF, hga, hgk, hgs, hsk, JSVal.strVal,
          exampleHandler, noFaults, Store.setH, Store.lookupH, assocUpdate,
          assocFind, servicesInfo, exampleRegStore]

end QueueService
